import Mathlib

/-!
Shallow embedding of the Tylephone ESP32 synthesizer firmware.

The repository holds two editions of the same monophonic synthesizer:
  * `Basic` — `src/esp32_synth.ino` (dedicated octave switch / waveform buttons);
  * `Menu`  — `src/unnamed/part_000` (rotary-encoder menu edition, with the
    ratchet/choppiness gate).

Modelling conventions:
  * `SAMPLES = 256` waveform samples, exactly the C `#define`.
  * C `int` values that are non-negative throughout the program
    (`currentFreq`, `volume`, phase index `currentSample`) are `ℕ`;
    `currentNote` ranges over `-1..11` and is `ℤ`.
  * The C `float` note frequencies are modelled as exact rationals.  Every
    table entry is at distance ≥ 0.13 from the nearest integer while the
    binary-`float` representation error is below 10⁻³, so `(int)` truncation
    of the `float` value agrees with `Rat.floor` of the decimal, both for the
    base frequency and for its exact doubling `baseFreq * 2.0` (doubling is
    exact in binary floating point).
  * The C cast `(int)x` / `(uint8_t)x` of a non-negative value is `floor`.
  * `unsigned long millis()` timestamps are `ℕ`; elapsed time
    `now - last` is ℕ-subtraction, which agrees with the unsigned C
    subtraction whenever `last ≤ now` (time is monotone between toggles).
  * The `volatile uint8_t *currentWaveform` pointer always designates one of
    the three static tables and is updated in lock-step with
    `selectedWaveform`; the emission routine therefore receives the static
    table memory as an explicit argument `tables : WaveType → ℕ → ℕ` and
    dereferences it through `selectedWaveform`.
  * Hardware writes (`dac_output_voltage`) are recorded in the `dacOut`
    field; `timerAlarmWrite` is recorded in `alarmPeriod` (µs).
-/

namespace Tylephone

/-- Macro `#define SAMPLES 256` (both editions). -/
def SAMPLES : ℕ := 256

/-- Macro `#define RATCHET_BASE_HZ 8` (menu edition). -/
def RATCHET_BASE_HZ : ℕ := 8

/-- Table `const float NOTE_FREQS_OCT4[12]` — chromatic scale for octave 4,
as exact rationals (see the float-faithfulness note in the header). -/
def NOTE_FREQS_OCT4 : List ℚ :=
  [26163/100, 27718/100, 29366/100, 31113/100, 32963/100, 34923/100,
   36999/100, 39200/100, 41530/100, 44000/100, 46616/100, 49388/100]

/-- The C `enum WaveType { SQUARE = 0, TRIANGLE = 1, SINE = 2 }`. -/
inductive WaveType where
  | square
  | triangle
  | sine
deriving DecidableEq, Repr

/-- Numeric value of the C enum constant. -/
def WaveType.toNat : WaveType → ℕ
  | .square => 0
  | .triangle => 1
  | .sine => 2

/-- Inverse of `WaveType.toNat` modulo 3, used for the menu edition's
`(WaveType)((selectedWaveform + k) % 3)` casts. -/
def WaveType.fromNat (n : ℕ) : WaveType :=
  match n % 3 with
  | 0 => .square
  | 1 => .triangle
  | _ => .sine

/-- C cast `(int)` of a non-negative rational (truncation toward zero). -/
def floorNat (q : ℚ) : ℕ := ⌊q⌋.toNat

/-- Entry `triangleWave[i]` as generated by `generateWaveforms` (both editions):
`(uint8_t)(i * 512 / SAMPLES)` on the first half,
`(uint8_t)(255 - ((i - SAMPLES / 2) * 512 / SAMPLES))` on the second.
All intermediate values lie in `[0,255]`, so the `uint8_t` cast is the
identity and ℕ-arithmetic is exact. -/
def triangleWave (i : ℕ) : ℕ :=
  if i < SAMPLES / 2 then i * 512 / SAMPLES
  else 255 - (i - SAMPLES / 2) * 512 / SAMPLES

/-- Entry `squareWave[i]` as generated by `generateWaveforms` (both editions). -/
def squareWave (i : ℕ) : ℕ :=
  if i < SAMPLES / 2 then 255 else 0

/-- Entry `sineWave[i]` as generated by `generateWaveforms` (both editions):
`(uint8_t)(127.5 + 127.5 * sin(2.0 * PI * i / SAMPLES))`.  The C cast of the
non-negative `double` truncates, i.e. takes the floor. -/
noncomputable def sineWave (i : ℕ) : ℤ :=
  ⌊(255 : ℝ) / 2 + (255 : ℝ) / 2 * Real.sin (2 * Real.pi * i / SAMPLES)⌋

/-- Modelled from the spec: the spec's sine-table formula
`sample[i] = round(127.5 + 127.5 · sin(2π·i/N))`, for comparison with the
source's `sineWave`. -/
noncomputable def sineWaveSpec (i : ℕ) : ℤ :=
  round ((255 : ℝ) / 2 + (255 : ℝ) / 2 * Real.sin (2 * Real.pi * i / SAMPLES))

/-- The frequency resolution performed inside `playNote` (both editions):
`float baseFreq = NOTE_FREQS_OCT4[noteIndex];`
`float freq = isHighOctave ? baseFreq * 2.0 : baseFreq;`. -/
def resolveFreq (isHigh : Bool) (n : ℕ) : ℚ :=
  let baseFreq := NOTE_FREQS_OCT4.getD n 0
  if isHigh then baseFreq * 2 else baseFreq

end Tylephone

namespace Tylephone.Basic

/-- Mutable program state of the basic edition (`src/esp32_synth.ino`)
that the audio core reads or writes. -/
structure State where
  currentSample : ℕ
  currentFreq : ℕ
  volume : ℕ
  selectedWaveform : WaveType
  isHighOctave : Bool
  currentNote : ℤ
  encoderPos : ℕ
  lastEncoderCLK : Bool
  alarmPeriod : ℕ
  dacOut : ℕ
deriving DecidableEq, Repr

/-- Initial values of the globals (`currentSample = 0`, `currentFreq = 0`,
`volume = 128`, sine waveform, low octave, `currentNote = -1`,
`encoderPos = 50`, `lastEncoderCLK = HIGH`, startup alarm 100 µs). -/
def init : State :=
  { currentSample := 0, currentFreq := 0, volume := 128,
    selectedWaveform := .sine, isHighOctave := false, currentNote := -1,
    encoderPos := 50, lastEncoderCLK := true, alarmPeriod := 100, dacOut := 0 }

/-- Function `setFrequency(float freq)` (basic edition, lines 232-242): non-positive
input routes to silence before any division; otherwise the truncated
frequency is stored and the timer alarm is reprogrammed to
`1000000 / (currentFreq * SAMPLES)` µs (C integer division). -/
def setFrequency (st : State) (freq : ℚ) : State :=
  if freq ≤ 0 then { st with currentFreq := 0 }
  else
    let f := floorNat freq
    { st with currentFreq := f, alarmPeriod := 1000000 / (f * SAMPLES) }

/-- Function `stopNote()` (basic edition): frequency to the silence sentinel, note
identity cleared, a silent sample forced to the DAC. -/
def stopNote (st : State) : State :=
  { st with currentFreq := 0, currentNote := -1, dacOut := 0 }

/-- Function `playNote(int noteIndex)` (basic edition, lines 244-257). -/
def playNote (st : State) (noteIndex : ℤ) : State :=
  if noteIndex < 0 ∨ 12 ≤ noteIndex then stopNote st
  else
    let freq := resolveFreq st.isHighOctave noteIndex.toNat
    let st' := setFrequency st freq
    { st' with currentNote := noteIndex }

/-- Interrupt handler `onTimer()` (basic edition, lines 123-131).  `tables` is the static
waveform memory the `currentWaveform` pointer designates. -/
def onTimer (tables : WaveType → ℕ → ℕ) (st : State) : State :=
  if 0 < st.currentFreq then
    { st with
      dacOut := tables st.selectedWaveform st.currentSample * st.volume / 255,
      currentSample := (st.currentSample + 1) % SAMPLES }
  else { st with dacOut := 0 }

/-- First key reported `HIGH` in scan order (lowest index wins), as in the
`for` loop of `scanKeyboard` with its `break`. -/
def firstPressed (keys : Fin 12 → Bool) : Option (Fin 12) :=
  (List.finRange 12).find? (fun i => keys i)

/-- Function `scanKeyboard()` (basic edition, lines 267-285). -/
def scanKeyboard (st : State) (keys : Fin 12 → Bool) : State :=
  match firstPressed keys with
  | some i => if st.currentNote = ((i : ℕ) : ℤ) then st else playNote st ((i : ℕ) : ℤ)
  | none => if st.currentNote ≠ -1 then stopNote st else st

/-- Function `readEncoder()` (basic edition, lines 289-314); volume only.
`clk`/`dt` are the two digital reads; the ℕ-subtraction clamp at 0 matches
the explicit `if (encoderPos < 0) encoderPos = 0`. -/
def readEncoder (st : State) (clk dt : Bool) : State :=
  if clk ≠ st.lastEncoderCLK ∧ clk = false then
    let pos := if dt then min (st.encoderPos + 1) 100 else st.encoderPos - 1
    { st with encoderPos := pos, volume := pos * 255 / 100, lastEncoderCLK := clk }
  else { st with lastEncoderCLK := clk }

/-- Function `setWaveform(WaveType type)` (basic edition): reassigns the active
waveform selector (the `currentWaveform` pointer tracks it; LEDs and serial
output are excluded hardware UI). -/
def setWaveform (st : State) (t : WaveType) : State :=
  { st with selectedWaveform := t }

/-- Function `readWaveformButtons()` (basic edition, lines 318-345).  Each boolean is
"button read LOW and its debounce window elapsed"; display flashing is
excluded UI. -/
def readWaveformButtons (st : State) (btnSq btnTr btnSi : Bool) : State :=
  let st1 := if btnSq then setWaveform st .square else st
  let st2 := if btnTr then setWaveform st1 .triangle else st1
  if btnSi then setWaveform st2 .sine else st2

/-- One iteration of `loop()` (basic edition, lines 190-205): read the
octave switch into `isHighOctave`, then `readEncoder`, then
`readWaveformButtons`, then `scanKeyboard`. -/
def loopStep (st : State) (octaveSwitchLow clk dt btnSq btnTr btnSi : Bool)
    (keys : Fin 12 → Bool) : State :=
  let st1 := { st with isHighOctave := octaveSwitchLow }
  let st2 := readEncoder st1 clk dt
  let st3 := readWaveformButtons st2 btnSq btnTr btnSi
  scanKeyboard st3 keys

end Tylephone.Basic

namespace Tylephone.Menu

/-- The C `enum MenuScreen` of the menu edition. -/
inductive MenuScreen where
  | waveform
  | octave
  | choppiness
deriving DecidableEq, Repr

/-- Mutable program state of the menu edition (`src/unnamed/part_000`)
that the audio core reads or writes. -/
structure State where
  currentSample : ℕ
  currentFreq : ℕ
  volume : ℕ
  selectedWaveform : WaveType
  isHighOctave : Bool
  choppiness : ℕ
  currentNote : ℤ
  lastRatchetToggle : ℕ
  ratchetOn : Bool
  encoderValue : ℕ
  alarmPeriod : ℕ
  dacOut : ℕ
deriving DecidableEq, Repr

/-- Initial values of the menu edition's globals. -/
def init : State :=
  { currentSample := 0, currentFreq := 0, volume := 128,
    selectedWaveform := .sine, isHighOctave := false, choppiness := 1,
    currentNote := -1, lastRatchetToggle := 0, ratchetOn := true,
    encoderValue := 50, alarmPeriod := 100, dacOut := 0 }

/-- Function `setFrequency(float freq)` (menu edition, lines 256-266) — textually
identical to the basic edition's. -/
def setFrequency (st : State) (freq : ℚ) : State :=
  if freq ≤ 0 then { st with currentFreq := 0 }
  else
    let f := floorNat freq
    { st with currentFreq := f, alarmPeriod := 1000000 / (f * SAMPLES) }

/-- Function `stopNote()` (menu edition, lines 283-287). -/
def stopNote (st : State) : State :=
  { st with currentFreq := 0, currentNote := -1, dacOut := 0 }

/-- Function `playNote(int noteIndex)` (menu edition, lines 268-281): additionally
resets the ratchet gate (`lastRatchetToggle = millis(); ratchetOn = true`).
`now` is the `millis()` reading. -/
def playNote (st : State) (now : ℕ) (noteIndex : ℤ) : State :=
  if noteIndex < 0 ∨ 12 ≤ noteIndex then stopNote st
  else
    let freq := resolveFreq st.isHighOctave noteIndex.toNat
    let st' := setFrequency st freq
    { st' with currentNote := noteIndex, lastRatchetToggle := now,
               ratchetOn := true }

/-- Expression `int ratchetPeriod = 1000 / (RATCHET_BASE_HZ * (choppiness / 2));`
(menu edition, line 158) — C integer division throughout. -/
def ratchetPeriod (choppiness : ℕ) : ℕ :=
  1000 / (RATCHET_BASE_HZ * (choppiness / 2))

/-- The ratchet-gate half of `onTimer()` (menu edition, lines 156-166):
toggle the gate when the elapsed time reaches the computed period, force it
open when `choppiness <= 1`. -/
def ratchetUpdate (st : State) (now : ℕ) : State :=
  if 1 < st.choppiness then
    if ratchetPeriod st.choppiness ≤ now - st.lastRatchetToggle then
      { st with ratchetOn := !st.ratchetOn, lastRatchetToggle := now }
    else st
  else { st with ratchetOn := true }

/-- Interrupt handler `onTimer()` (menu edition, lines 154-175): ratchet update, then either
one scaled sample with a phase advance, or silence with the phase frozen. -/
def onTimer (tables : WaveType → ℕ → ℕ) (st : State) (now : ℕ) : State :=
  let st1 := ratchetUpdate st now
  if 0 < st1.currentFreq ∧ st1.ratchetOn = true then
    { st1 with
      dacOut := tables st1.selectedWaveform st1.currentSample * st1.volume / 255,
      currentSample := (st1.currentSample + 1) % SAMPLES }
  else { st1 with dacOut := 0 }

/-- A run of timer interrupts: one `onTimer` per `millis()` reading in
`times`, in order. -/
def runTimer (tables : WaveType → ℕ → ℕ) (st : State) (times : List ℕ) : State :=
  times.foldl (onTimer tables) st

/-- Function `scanKeyboard()` (menu edition, lines 291-307). -/
def scanKeyboard (st : State) (now : ℕ) (keys : Fin 12 → Bool) : State :=
  match Basic.firstPressed keys with
  | some i =>
      if st.currentNote = ((i : ℕ) : ℤ) then st else playNote st now ((i : ℕ) : ℤ)
  | none => if st.currentNote ≠ -1 then stopNote st else st

/-- Function `adjustCurrentSetting(int direction)` (menu edition, lines 388-436).
The waveform branch updates the selector (and with it the table pointer);
the octave branch toggles the flag and, if a note is sounding, immediately
re-applies it through `playNote(currentNote)`; the choppiness branch cycles
through 1 → 2 → 4 → 8 → 1 (and the reverse). -/
def adjustCurrentSetting (st : State) (menu : MenuScreen) (direction : ℤ)
    (now : ℕ) : State :=
  match menu with
  | .waveform =>
      let w := if 0 < direction then WaveType.fromNat (st.selectedWaveform.toNat + 1)
               else WaveType.fromNat (st.selectedWaveform.toNat + 2)
      { st with selectedWaveform := w }
  | .octave =>
      let st' := { st with isHighOctave := !st.isHighOctave }
      if st'.currentNote ≠ -1 then playNote st' now st'.currentNote else st'
  | .choppiness =>
      if 0 < direction then
        { st with choppiness := if 8 ≤ st.choppiness then 1 else st.choppiness * 2 }
      else
        { st with choppiness := if st.choppiness ≤ 1 then 8 else st.choppiness / 2 }

/-- A sequence of choppiness adjustments: `true` is a clockwise turn
(`direction = 1`), `false` a counter-clockwise one (`direction = -1`),
each dispatched through `adjustCurrentSetting` on the choppiness screen. -/
def applyChopAdjustments (st : State) (dirs : List Bool) : State :=
  dirs.foldl
    (fun s d => adjustCurrentSetting s .choppiness (if d then 1 else -1) 0) st

end Tylephone.Menu

namespace Tylephone

/-- Concrete basic-edition state in which key 0 is held and sounding: note
identity 0, stored frequency 261 Hz (truncation of 261.63), low octave,
alarm period `1000000 / (261 * 256) = 14` µs. -/
def c1BasicState : Basic.State :=
  { Basic.init with currentNote := 0, currentFreq := 261, alarmPeriod := 14 }

/-- Key matrix with exactly key 0 pressed. -/
def c1Keys : Fin 12 → Bool := fun i => i == 0

/-- Concrete menu-edition state in which note 0 is sounding: note identity
0, stored frequency 261 Hz, low octave. -/
def c1MenuState : Menu.State :=
  { Menu.init with currentNote := 0, currentFreq := 261, alarmPeriod := 14 }

end Tylephone

/-! ## Helper lemmas -/

namespace Tylephone

/-- The resolved frequency of any in-range note is positive. -/
theorem resolveFreq_pos : ∀ (b : Bool) (m : ℕ), m < 12 → 0 < resolveFreq b m := by
  intro b m hm
  unfold resolveFreq NOTE_FREQS_OCT4
  interval_cases m <;> cases b <;> norm_num

/-- Frame fact: `Basic.setFrequency` never touches the phase index. -/
theorem basic_setFrequency_currentSample (st : Basic.State) (f : ℚ) :
    (Basic.setFrequency st f).currentSample = st.currentSample := by
  unfold Basic.setFrequency
  split <;> rfl

/-- Frame fact: `Basic.playNote` never touches the phase index. -/
theorem basic_playNote_currentSample (st : Basic.State) (i : ℤ) :
    (Basic.playNote st i).currentSample = st.currentSample := by
  unfold Basic.playNote Basic.stopNote
  split
  · rfl
  · exact basic_setFrequency_currentSample st _

/-- Frame fact: `Basic.scanKeyboard` never touches the phase index. -/
theorem basic_scanKeyboard_currentSample (st : Basic.State) (keys : Fin 12 → Bool) :
    (Basic.scanKeyboard st keys).currentSample = st.currentSample := by
  unfold Basic.scanKeyboard
  rcases Basic.firstPressed keys with _ | i
  · dsimp only
    split <;> rfl
  · dsimp only
    split
    · rfl
    · exact basic_playNote_currentSample st _

/-- Frame fact: `Basic.readEncoder` never touches the phase index. -/
theorem basic_readEncoder_currentSample (st : Basic.State) (clk dt : Bool) :
    (Basic.readEncoder st clk dt).currentSample = st.currentSample := by
  unfold Basic.readEncoder
  split <;> rfl

/-- Frame fact: `Basic.readWaveformButtons` never touches the phase index. -/
theorem basic_readWaveformButtons_currentSample (st : Basic.State)
    (bq bt bs : Bool) :
    (Basic.readWaveformButtons st bq bt bs).currentSample = st.currentSample := by
  unfold Basic.readWaveformButtons Basic.setWaveform
  split <;> split <;> split <;> rfl

/-- Frame fact: `Menu.setFrequency` never touches the phase index. -/
theorem menu_setFrequency_currentSample (st : Menu.State) (f : ℚ) :
    (Menu.setFrequency st f).currentSample = st.currentSample := by
  unfold Menu.setFrequency
  split <;> rfl

/-- Frame fact: `Menu.playNote` never touches the phase index. -/
theorem menu_playNote_currentSample (st : Menu.State) (now : ℕ) (i : ℤ) :
    (Menu.playNote st now i).currentSample = st.currentSample := by
  unfold Menu.playNote Menu.stopNote
  split
  · rfl
  · exact menu_setFrequency_currentSample st _

/-- Frame fact: `Menu.scanKeyboard` never touches the phase index. -/
theorem menu_scanKeyboard_currentSample (st : Menu.State) (now : ℕ)
    (keys : Fin 12 → Bool) :
    (Menu.scanKeyboard st now keys).currentSample = st.currentSample := by
  unfold Menu.scanKeyboard
  rcases Basic.firstPressed keys with _ | i
  · dsimp only
    split <;> rfl
  · dsimp only
    split
    · rfl
    · exact menu_playNote_currentSample st now _

/-- Frame fact: `Menu.adjustCurrentSetting` never touches the phase index. -/
theorem menu_adjustCurrentSetting_currentSample (st : Menu.State)
    (m : Menu.MenuScreen) (d : ℤ) (now : ℕ) :
    (Menu.adjustCurrentSetting st m d now).currentSample = st.currentSample := by
  unfold Menu.adjustCurrentSetting
  rcases m with _ | _ | _
  · rfl
  · dsimp only
    split
    · exact menu_playNote_currentSample _ now _
    · rfl
  · dsimp only
    split <;> rfl

end Tylephone

/-! ## Claim theorems -/

namespace Tylephone

/-- C7: for every note index outside `[0, 11]`, `playNote(index)` behaves
exactly as `stopNote()` in both editions — target frequency becomes the
silence sentinel 0, the note identity becomes -1, and no frequency is
resolved from the table (the resulting state is exactly the `stopNote`
state). -/
theorem playNote_out_of_range_is_stopNote (noteIndex : ℤ)
    (h : noteIndex < 0 ∨ 12 ≤ noteIndex) :
    (∀ st : Basic.State, Basic.playNote st noteIndex = Basic.stopNote st) ∧
    (∀ (st : Menu.State) (now : ℕ),
      Menu.playNote st now noteIndex = Menu.stopNote st) := by
  refine ⟨fun st => ?_, fun st now => ?_⟩
  · unfold Basic.playNote
    rw [if_pos h]
  · unfold Menu.playNote
    rw [if_pos h]

/-- Witness for C7 at the concrete out-of-range index 12. -/
theorem playNote_out_of_range_is_stopNote_witness :
    Basic.playNote Basic.init 12 = Basic.stopNote Basic.init :=
  (playNote_out_of_range_is_stopNote 12 (by decide)).1 Basic.init

/-- C8: for every frequency argument ≤ 0, `setFrequency` (either edition)
sets the target frequency to 0 and changes nothing else — in particular the
timer alarm period is left untouched, so no period division is performed on
a zero or negative frequency. -/
theorem setFrequency_nonpositive_silences (freq : ℚ) (h : freq ≤ 0) :
    (∀ st : Basic.State,
      Basic.setFrequency st freq = { st with currentFreq := 0 }) ∧
    (∀ st : Menu.State,
      Menu.setFrequency st freq = { st with currentFreq := 0 }) := by
  refine ⟨fun st => ?_, fun st => ?_⟩
  · unfold Basic.setFrequency
    rw [if_pos h]
  · unfold Menu.setFrequency
    rw [if_pos h]

/-- Witness for C8 at the concrete non-positive frequency -1. -/
theorem setFrequency_nonpositive_silences_witness :
    Basic.setFrequency Basic.init (-1) = { Basic.init with currentFreq := 0 } :=
  (setFrequency_nonpositive_silences (-1) (by norm_num)).1 Basic.init

/-- C10: neither `playNote` nor `stopNote` (nor any other modelled
foreground operation — `setFrequency`, `scanKeyboard`, the basic `loop`
body, encoder/button handling, `adjustCurrentSetting`) resets or modifies
the phase index `currentSample`, in either edition; only the emission
routine `onTimer` advances it, so a newly started note resumes from the
phase position the previous playback left off. -/
theorem phase_only_mutated_by_onTimer :
    (∀ (st : Basic.State) (i : ℤ),
      (Basic.playNote st i).currentSample = st.currentSample) ∧
    (∀ st : Basic.State, (Basic.stopNote st).currentSample = st.currentSample) ∧
    (∀ (st : Basic.State) (f : ℚ),
      (Basic.setFrequency st f).currentSample = st.currentSample) ∧
    (∀ (st : Basic.State) (keys : Fin 12 → Bool),
      (Basic.scanKeyboard st keys).currentSample = st.currentSample) ∧
    (∀ (st : Basic.State) (o c d bq bt bs : Bool) (keys : Fin 12 → Bool),
      (Basic.loopStep st o c d bq bt bs keys).currentSample = st.currentSample) ∧
    (∀ (st : Menu.State) (now : ℕ) (i : ℤ),
      (Menu.playNote st now i).currentSample = st.currentSample) ∧
    (∀ st : Menu.State, (Menu.stopNote st).currentSample = st.currentSample) ∧
    (∀ (st : Menu.State) (f : ℚ),
      (Menu.setFrequency st f).currentSample = st.currentSample) ∧
    (∀ (st : Menu.State) (now : ℕ) (keys : Fin 12 → Bool),
      (Menu.scanKeyboard st now keys).currentSample = st.currentSample) ∧
    (∀ (st : Menu.State) (m : Menu.MenuScreen) (d : ℤ) (now : ℕ),
      (Menu.adjustCurrentSetting st m d now).currentSample = st.currentSample) := by
  refine ⟨basic_playNote_currentSample, fun _ => rfl,
    basic_setFrequency_currentSample, basic_scanKeyboard_currentSample,
    fun st o c d bq bt bs keys => ?_, menu_playNote_currentSample,
    fun _ => rfl, menu_setFrequency_currentSample,
    menu_scanKeyboard_currentSample, menu_adjustCurrentSetting_currentSample⟩
  unfold Basic.loopStep
  rw [basic_scanKeyboard_currentSample, basic_readWaveformButtons_currentSample,
    basic_readEncoder_currentSample]

end Tylephone

namespace Tylephone

/-- C3: for every valid note index, `playNote` (either edition) programs
the periodic-interrupt period to `1000000 / (frequency * SAMPLES)`
microseconds with `SAMPLES = 256`, where `frequency` is the stored integer
truncation of the resolved note frequency (C integer arithmetic
throughout), so the emission routine is invoked `SAMPLES` times per
waveform cycle at the programmed rate. -/
theorem playNote_programs_period (st : Basic.State) (stm : Menu.State)
    (n : ℤ) (now : ℕ) (h0 : 0 ≤ n) (h12 : n < 12) :
    SAMPLES = 256 ∧
    (Basic.playNote st n).alarmPeriod =
      1000000 / (floorNat (resolveFreq st.isHighOctave n.toNat) * SAMPLES) ∧
    (Menu.playNote stm now n).alarmPeriod =
      1000000 / (floorNat (resolveFreq stm.isHighOctave n.toNat) * SAMPLES) := by
  have hn : ¬(n < 0 ∨ 12 ≤ n) := by omega
  have hmn : n.toNat < 12 := by omega
  refine ⟨rfl, ?_, ?_⟩
  · have hpos := resolveFreq_pos st.isHighOctave n.toNat hmn
    unfold Basic.playNote
    rw [if_neg hn]
    dsimp only
    unfold Basic.setFrequency
    rw [if_neg (not_le.mpr hpos)]
  · have hpos := resolveFreq_pos stm.isHighOctave n.toNat hmn
    unfold Menu.playNote
    rw [if_neg hn]
    dsimp only
    unfold Menu.setFrequency
    rw [if_neg (not_le.mpr hpos)]

/-- Witness for C3 at note index 9 (A4): both editions program the period
from the resolved frequency. -/
theorem playNote_programs_period_witness :
    SAMPLES = 256 ∧
    (Basic.playNote Basic.init 9).alarmPeriod =
      1000000 / (floorNat (resolveFreq Basic.init.isHighOctave (9 : ℤ).toNat) * SAMPLES) ∧
    (Menu.playNote Menu.init 0 9).alarmPeriod =
      1000000 / (floorNat (resolveFreq Menu.init.isHighOctave (9 : ℤ).toNat) * SAMPLES) :=
  playNote_programs_period Basic.init Menu.init 9 0 (by decide) (by decide)

/-- C9: starting from the initial choppiness level 1, every sequence of
cyclic increment/decrement operations through `adjustCurrentSetting` keeps
the choppiness level in the enumerated set `{1, 2, 4, 8}`; a clockwise turn
maps 1→2→4→8→1 and a counter-clockwise turn maps the inverse cycle, and no
operation produces any other value. -/
theorem choppiness_stays_in_enumerated_set (st : Menu.State) (dirs : List Bool)
    (h : st.choppiness = 1) :
    (Menu.applyChopAdjustments st dirs).choppiness ∈ ({1, 2, 4, 8} : Finset ℕ) ∧
    (∀ (s : Menu.State) (now : ℕ),
      (s.choppiness = 1 →
        (Menu.adjustCurrentSetting s .choppiness 1 now).choppiness = 2 ∧
        (Menu.adjustCurrentSetting s .choppiness (-1) now).choppiness = 8) ∧
      (s.choppiness = 2 →
        (Menu.adjustCurrentSetting s .choppiness 1 now).choppiness = 4 ∧
        (Menu.adjustCurrentSetting s .choppiness (-1) now).choppiness = 1) ∧
      (s.choppiness = 4 →
        (Menu.adjustCurrentSetting s .choppiness 1 now).choppiness = 8 ∧
        (Menu.adjustCurrentSetting s .choppiness (-1) now).choppiness = 2) ∧
      (s.choppiness = 8 →
        (Menu.adjustCurrentSetting s .choppiness 1 now).choppiness = 1 ∧
        (Menu.adjustCurrentSetting s .choppiness (-1) now).choppiness = 4)) := by
  constructor
  · have step : ∀ (s : Menu.State) (d : Bool),
        s.choppiness ∈ ({1, 2, 4, 8} : Finset ℕ) →
        (Menu.adjustCurrentSetting s .choppiness (if d then 1 else -1) 0).choppiness
          ∈ ({1, 2, 4, 8} : Finset ℕ) := by
      intro s d hs
      simp only [Finset.mem_insert, Finset.mem_singleton] at hs ⊢
      cases d <;> rcases hs with hc | hc | hc | hc <;>
        simp [Menu.adjustCurrentSetting, hc]
    have inv : ∀ (l : List Bool) (s : Menu.State),
        s.choppiness ∈ ({1, 2, 4, 8} : Finset ℕ) →
        (Menu.applyChopAdjustments s l).choppiness ∈ ({1, 2, 4, 8} : Finset ℕ) := by
      intro l
      induction l with
      | nil => exact fun s hs => hs
      | cons d t ih =>
          intro s hs
          exact ih _ (step s d hs)
    exact inv dirs st (by rw [h]; decide)
  · intro s now
    refine ⟨fun hc => ⟨?_, ?_⟩, fun hc => ⟨?_, ?_⟩, fun hc => ⟨?_, ?_⟩,
      fun hc => ⟨?_, ?_⟩⟩ <;>
      simp [Menu.adjustCurrentSetting, hc]

/-- Witness for C9: one clockwise turn from the initial state. -/
theorem choppiness_stays_in_enumerated_set_witness :
    (Menu.applyChopAdjustments Menu.init [true]).choppiness
      ∈ ({1, 2, 4, 8} : Finset ℕ) :=
  (choppiness_stays_in_enumerated_set Menu.init [true] rfl).1

end Tylephone

namespace Tylephone

/-- Silent tick of the basic edition: with the silence sentinel set, the
emission routine emits 0 and changes nothing else. -/
theorem basic_onTimer_silent (tables : WaveType → ℕ → ℕ) (st : Basic.State)
    (h : st.currentFreq = 0) :
    Basic.onTimer tables st = { st with dacOut := 0 } := by
  unfold Basic.onTimer
  rw [if_neg (by omega)]

/-- Iterated silent ticks of the basic edition keep the sentinel, freeze
the phase and emit 0. -/
theorem basic_onTimer_iterate_silent (tables : WaveType → ℕ → ℕ)
    (st : Basic.State) (h : st.currentFreq = 0) (n : ℕ) :
    ((Basic.onTimer tables)^[n] st).currentFreq = 0 ∧
    ((Basic.onTimer tables)^[n] st).currentSample = st.currentSample ∧
    (0 < n → ((Basic.onTimer tables)^[n] st).dacOut = 0) := by
  induction n with
  | zero => exact ⟨h, rfl, by omega⟩
  | succ n ih =>
      rw [Function.iterate_succ_apply', basic_onTimer_silent tables _ ih.1]
      exact ⟨ih.1, ih.2.1, fun _ => rfl⟩

/-- Frame fact: the ratchet update never touches frequency or phase. -/
theorem menu_ratchetUpdate_frame (st : Menu.State) (now : ℕ) :
    (Menu.ratchetUpdate st now).currentFreq = st.currentFreq ∧
    (Menu.ratchetUpdate st now).currentSample = st.currentSample := by
  unfold Menu.ratchetUpdate
  split
  · split <;> exact ⟨rfl, rfl⟩
  · exact ⟨rfl, rfl⟩

/-- Silent tick of the menu edition: with the silence sentinel set, the
emission routine emits 0, keeps the sentinel and freezes the phase
(the ratchet bookkeeping may still change). -/
theorem menu_onTimer_silent (tables : WaveType → ℕ → ℕ) (st : Menu.State)
    (now : ℕ) (h : st.currentFreq = 0) :
    (Menu.onTimer tables st now).currentFreq = 0 ∧
    (Menu.onTimer tables st now).currentSample = st.currentSample ∧
    (Menu.onTimer tables st now).dacOut = 0 := by
  have hf := (menu_ratchetUpdate_frame st now).1
  have hs := (menu_ratchetUpdate_frame st now).2
  simp only [Menu.onTimer]
  rw [if_neg (by rw [hf, h]; simp)]
  exact ⟨hf.trans h, hs, rfl⟩

/-- Runs of silent menu-edition ticks keep the sentinel, freeze the phase
and emit 0 on every tick. -/
theorem menu_runTimer_silent (tables : WaveType → ℕ → ℕ) (st : Menu.State)
    (times : List ℕ) (h : st.currentFreq = 0) :
    (Menu.runTimer tables st times).currentFreq = 0 ∧
    (Menu.runTimer tables st times).currentSample = st.currentSample ∧
    (times ≠ [] → (Menu.runTimer tables st times).dacOut = 0) := by
  induction times generalizing st with
  | nil => exact ⟨h, rfl, by simp⟩
  | cons t ts ih =>
      have hstep := menu_onTimer_silent tables st t h
      have hrec := ih (Menu.onTimer tables st t) hstep.1
      refine ⟨hrec.1, hrec.2.1.trans hstep.2.1, fun _ => ?_⟩
      by_cases hts : ts = []
      · subst hts
        exact hstep.2.2
      · exact hrec.2.2 hts

/-- C2: after `stopNote()` every subsequent invocation of the emission
routine emits the silence value 0 and leaves the phase index unchanged, in
both editions (any number of ticks, any interleaving of `millis()`
readings); more generally, on any emission tick whose silence branch is
taken — frequency 0, or (menu edition) gate closed after the ratchet
update — the phase index does not advance. -/
theorem stopNote_then_silence (tables : WaveType → ℕ → ℕ) (n : ℕ)
    (times : List ℕ) (st : Basic.State) (stm : Menu.State) (now : ℕ)
    (hn : 0 < n) (htimes : times ≠ []) :
    (((Basic.onTimer tables)^[n] (Basic.stopNote st)).currentSample
        = st.currentSample ∧
     ((Basic.onTimer tables)^[n] (Basic.stopNote st)).dacOut = 0) ∧
    ((Menu.runTimer tables (Menu.stopNote stm) times).currentSample
        = stm.currentSample ∧
     (Menu.runTimer tables (Menu.stopNote stm) times).dacOut = 0) ∧
    (st.currentFreq = 0 →
      Basic.onTimer tables st = { st with dacOut := 0 }) ∧
    (¬(0 < (Menu.ratchetUpdate stm now).currentFreq ∧
        (Menu.ratchetUpdate stm now).ratchetOn = true) →
      (Menu.onTimer tables stm now).currentSample = stm.currentSample ∧
      (Menu.onTimer tables stm now).dacOut = 0) := by
  refine ⟨?_, ?_, basic_onTimer_silent tables st, ?_⟩
  · have hb := basic_onTimer_iterate_silent tables (Basic.stopNote st) rfl n
    exact ⟨hb.2.1, hb.2.2 hn⟩
  · have hm := menu_runTimer_silent tables (Menu.stopNote stm) times rfl
    exact ⟨hm.2.1, hm.2.2 htimes⟩
  · intro hgate
    have hs := (menu_ratchetUpdate_frame stm now).2
    simp only [Menu.onTimer]
    rw [if_neg hgate]
    exact ⟨hs, rfl⟩

/-- Witness for C2: three silent ticks after `stopNote` from the initial
states, with the all-zero table. -/
theorem stopNote_then_silence_witness :
    ((Basic.onTimer (fun _ _ => 0))^[3]
        (Basic.stopNote Basic.init)).currentSample = Basic.init.currentSample ∧
    ((Basic.onTimer (fun _ _ => 0))^[3]
        (Basic.stopNote Basic.init)).dacOut = 0 :=
  (stopNote_then_silence (fun _ _ => 0) 3 [5, 10, 15] Basic.init Menu.init 0
    (by decide) (by decide)).1

end Tylephone

namespace Tylephone

/-- C4 counterexample: at choppiness 8 the code's computed toggle
half-period is the integer `1000 / (8 * (8 / 2)) = 31` ms, not the claimed
fractional 31.25 ms — the C expression divides integers. -/
theorem ratchet_period_not_fractional :
    (Menu.ratchetPeriod 8 : ℚ) ≠ 1000 / (8 * ((8 : ℚ) / 2)) := by
  have h : Menu.ratchetPeriod 8 = 31 := rfl
  rw [h]
  norm_num

/-- C4 amended: with base rate 8 Hz the computed toggle half-period is
`1000 / (8 * (2 / 2)) = 125` ms at choppiness 2 and
`1000 / (8 * (8 / 2)) = 31` ms at choppiness 8 (integer division truncates
31.25 to 31); the emission routine's ratchet update toggles the gate
exactly when the elapsed time reaches that period (shown at choppiness 8:
toggled at 31 ms elapsed, untouched at 30 ms). -/
theorem ratchet_period_truncated (st : Menu.State) (h8 : st.choppiness = 8) :
    Menu.ratchetPeriod 2 = 125 ∧
    Menu.ratchetPeriod 8 = 31 ∧
    (Menu.ratchetUpdate st (st.lastRatchetToggle + 31)).ratchetOn
      = !st.ratchetOn ∧
    (Menu.ratchetUpdate st (st.lastRatchetToggle + 30)).ratchetOn
      = st.ratchetOn := by
  refine ⟨rfl, rfl, ?_, ?_⟩
  · unfold Menu.ratchetUpdate
    rw [if_pos (by omega),
      if_pos (by rw [h8, show Menu.ratchetPeriod 8 = 31 from rfl]; omega)]
  · unfold Menu.ratchetUpdate
    rw [if_pos (by omega),
      if_neg (by rw [h8, show Menu.ratchetPeriod 8 = 31 from rfl]; omega)]

/-- Witness for C4 at the initial state put on choppiness 8. -/
theorem ratchet_period_truncated_witness :
    Menu.ratchetPeriod 2 = 125 ∧
    Menu.ratchetPeriod 8 = 31 ∧
    (Menu.ratchetUpdate { Menu.init with choppiness := 8 }
        ({ Menu.init with choppiness := 8 }.lastRatchetToggle + 31)).ratchetOn
      = !{ Menu.init with choppiness := 8 }.ratchetOn ∧
    (Menu.ratchetUpdate { Menu.init with choppiness := 8 }
        ({ Menu.init with choppiness := 8 }.lastRatchetToggle + 30)).ratchetOn
      = { Menu.init with choppiness := 8 }.ratchetOn :=
  ratchet_period_truncated { Menu.init with choppiness := 8 } rfl

end Tylephone

namespace Tylephone

/-- Closed form of the triangle table on the rising half: `i*512/256 = 2i`. -/
theorem triangleWave_lo (i : ℕ) (h : i < 128) : triangleWave i = 2 * i := by
  unfold triangleWave SAMPLES
  rw [if_pos (by omega)]
  have h512 : i * 512 = 2 * i * 256 := by ring
  rw [h512, Nat.mul_div_cancel _ (by norm_num)]

/-- Closed form of the triangle table on the falling half:
`255 - (i-128)*512/256 = 255 - 2*(i-128)`. -/
theorem triangleWave_hi (i : ℕ) (h : 128 ≤ i) :
    triangleWave i = 255 - 2 * (i - 128) := by
  unfold triangleWave SAMPLES
  rw [if_neg (by omega)]
  have h512 : (i - 256 / 2) * 512 = 2 * (i - 128) * 256 := by
    have : (256 : ℕ) / 2 = 128 := rfl
    rw [this]
    ring
  rw [h512, Nat.mul_div_cancel _ (by norm_num)]

/-- C6: the generated triangle table satisfies `sample[i] = i*512/N` for
`i < N/2` and `sample[i] = 255 - (i - N/2)*512/N` otherwise (exactly the
generator's arithmetic); it has `sample[0] = 0`, `sample[N/2-1] = 254`
(≈255), `sample[N-1] = 1` (≈0, the nearest achievable boundary value under
this formula), and it is monotone non-decreasing over the first half and
non-increasing over the second half. -/
theorem triangle_table_shape :
    (∀ i, triangleWave i = if i < SAMPLES / 2 then i * 512 / SAMPLES
                           else 255 - (i - SAMPLES / 2) * 512 / SAMPLES) ∧
    triangleWave 0 = 0 ∧
    triangleWave (SAMPLES / 2 - 1) = 254 ∧
    triangleWave (SAMPLES - 1) = 1 ∧
    (∀ j k, j ≤ k → k < SAMPLES / 2 → triangleWave j ≤ triangleWave k) ∧
    (∀ j k, SAMPLES / 2 ≤ j → j ≤ k → k < SAMPLES →
      triangleWave k ≤ triangleWave j) := by
  refine ⟨fun i => rfl, rfl, rfl, rfl, fun j k hjk hk => ?_, fun j k hj hjk hk => ?_⟩
  · have hj' : j < 128 := by
      have : SAMPLES / 2 = 128 := rfl
      omega
    have hk' : k < 128 := by
      have : SAMPLES / 2 = 128 := rfl
      omega
    rw [triangleWave_lo j hj', triangleWave_lo k hk']
    omega
  · have hj' : 128 ≤ j := by
      have : SAMPLES / 2 = 128 := rfl
      omega
    have hk' : 128 ≤ k := le_trans hj' hjk
    rw [triangleWave_hi j hj', triangleWave_hi k hk']
    omega

/-- Witness for C6: instantiates the monotonicity clauses at concrete
indices (rising half at 3 ≤ 5, falling half at 130 ≤ 200). -/
theorem triangle_table_shape_witness :
    triangleWave 3 ≤ triangleWave 5 ∧ triangleWave 200 ≤ triangleWave 130 :=
  ⟨triangle_table_shape.2.2.2.2.1 3 5 (by decide) (by decide),
   triangle_table_shape.2.2.2.2.2 130 200 (by decide) (by decide) (by decide)⟩

end Tylephone

namespace Tylephone

set_option maxRecDepth 8192 in
/-- C1 counterexample: (a) in the basic edition, one `loop()` iteration in
which the octave switch flips to high while key 0 stays held leaves the
programmed frequency at 261 Hz — the octave flag changed but no
re-resolution happened (the claim demands 2 × 261 = 522); (b) in the menu
edition, where re-resolution does happen, the re-programmed frequency is
`(int)(2 * 261.63) = 523`, which is not exactly twice the prior programmed
value 261. -/
theorem octave_toggle_claim_fails :
    ((Basic.loopStep c1BasicState true true false false false false
        c1Keys).isHighOctave = true ∧
     (Basic.loopStep c1BasicState true true false false false false
        c1Keys).currentFreq = c1BasicState.currentFreq ∧
     c1BasicState.currentFreq = 261) ∧
    ((Menu.adjustCurrentSetting c1MenuState .octave 1 99).currentFreq = 523 ∧
     (Menu.adjustCurrentSetting c1MenuState .octave 1 99).currentFreq
        ≠ 2 * c1MenuState.currentFreq) := by
  constructor
  · exact ⟨by decide, by decide, rfl⟩
  · have hfreq : resolveFreq true 0 = 26163 / 50 := by
      norm_num [resolveFreq, NOTE_FREQS_OCT4]
    have hfloor : floorNat (26163 / 50 : ℚ) = 523 := by
      unfold floorNat
      rw [show ⌊(26163 / 50 : ℚ)⌋ = 523 by norm_num]
      rfl
    have h : (Menu.adjustCurrentSetting c1MenuState .octave 1 99).currentFreq
        = 523 := by
      show (Menu.setFrequency { c1MenuState with isHighOctave := true }
              (resolveFreq true 0)).currentFreq = 523
      rw [hfreq]
      unfold Menu.setFrequency
      rw [if_neg (by norm_num)]
      exact hfloor
    exact ⟨h, by rw [h]; decide⟩

/-- C1 amended: only the menu edition re-resolves at the moment the octave
flag changes — `adjustCurrentSetting` on the octave screen flips the flag
and, when a note is sounding, immediately re-applies it via
`playNote(currentNote)` without a new key press, storing the integer
truncation of the newly resolved frequency; the resolved (pre-truncation)
frequency is exactly 2× the low-octave resolution.  In the basic edition
the flag change alone does not re-program the frequency (see the
counterexample); it takes effect at the next note change. -/
theorem octave_toggle_reapplies_in_menu_edition (st : Menu.State) (now : ℕ)
    (d : ℤ) (n : ℤ) (h : st.currentNote = n) (h0 : 0 ≤ n) (h12 : n < 12) :
    (Menu.adjustCurrentSetting st .octave d now).isHighOctave
      = !st.isHighOctave ∧
    (Menu.adjustCurrentSetting st .octave d now).currentNote = n ∧
    (Menu.adjustCurrentSetting st .octave d now).currentFreq
      = floorNat (resolveFreq (!st.isHighOctave) n.toNat) ∧
    (∀ m, m < 12 → resolveFreq true m = 2 * resolveFreq false m) := by
  have hne : st.currentNote ≠ -1 := by omega
  have hnn : ¬(st.currentNote < 0 ∨ 12 ≤ st.currentNote) := by omega
  have hpos := resolveFreq_pos (!st.isHighOctave) st.currentNote.toNat (by omega)
  simp only [Menu.adjustCurrentSetting]
  rw [if_pos (show ({ st with isHighOctave := !st.isHighOctave } :
        Menu.State).currentNote ≠ -1 from hne)]
  simp only [Menu.playNote]
  rw [if_neg hnn]
  simp only [Menu.setFrequency]
  rw [if_neg (not_le.mpr hpos)]
  subst h
  exact ⟨rfl, rfl, rfl, fun m _ => by simp [resolveFreq, mul_comm]⟩

/-- Witness for C1's amended theorem at the concrete sounding-note state. -/
theorem octave_toggle_reapplies_in_menu_edition_witness :
    (Menu.adjustCurrentSetting c1MenuState .octave 1 99).isHighOctave
      = !c1MenuState.isHighOctave ∧
    (Menu.adjustCurrentSetting c1MenuState .octave 1 99).currentNote = 0 ∧
    (Menu.adjustCurrentSetting c1MenuState .octave 1 99).currentFreq
      = floorNat (resolveFreq (!c1MenuState.isHighOctave) (0 : ℤ).toNat) ∧
    (∀ m, m < 12 → resolveFreq true m = 2 * resolveFreq false m) :=
  octave_toggle_reapplies_in_menu_edition c1MenuState 99 1 0 rfl
    (by decide) (by decide)

end Tylephone

namespace Tylephone

/-- Angle identity: the table angle at `i + 128` is the angle at `i`
plus π (half the 256-sample cycle). -/
theorem sine_angle_add_half (i : ℕ) :
    2 * Real.pi * ((i + 128 : ℕ) : ℝ) / SAMPLES
      = 2 * Real.pi * i / SAMPLES + Real.pi := by
  have h : (SAMPLES : ℝ) = 256 := by norm_num [SAMPLES]
  rw [h]
  push_cast
  ring

/-- Half-cycle symmetry of the generated sine table, at the real level:
the entry at `i + 128` is the floor of `255` minus the pre-cast value at
`i`. -/
theorem sineWave_add_half (i : ℕ) :
    sineWave (i + 128)
      = ⌊(255 : ℝ) - ((255 : ℝ) / 2
          + (255 : ℝ) / 2 * Real.sin (2 * Real.pi * i / SAMPLES))⌋ := by
  unfold sineWave
  rw [sine_angle_add_half i, Real.sin_add_pi]
  congr 1
  ring

/-- Floors of a pair of reals summing to 255 add up to 254 or 255. -/
theorem floor_pair_bounds (x : ℝ) :
    254 ≤ ⌊x⌋ + ⌊255 - x⌋ ∧ ⌊x⌋ + ⌊255 - x⌋ ≤ 255 := by
  constructor
  · have h1 : x - 1 < (⌊x⌋ : ℝ) := Int.sub_one_lt_floor x
    have h2 : (255 - x) - 1 < (⌊255 - x⌋ : ℝ) := Int.sub_one_lt_floor _
    have h3 : (253 : ℝ) < ((⌊x⌋ + ⌊255 - x⌋ : ℤ) : ℝ) := by push_cast; linarith
    have h4 : (253 : ℤ) < ⌊x⌋ + ⌊255 - x⌋ := by exact_mod_cast h3
    omega
  · have h1 := Int.floor_le x
    have h2 := Int.floor_le (255 - x)
    have h3 : ((⌊x⌋ + ⌊255 - x⌋ : ℤ) : ℝ) ≤ 255 := by push_cast; linarith
    exact_mod_cast h3

/-- First entry of the generated sine table: the cast truncates 127.5
down to 127. -/
theorem sineWave_zero : sineWave 0 = 127 := by
  have h : 2 * Real.pi * ((0 : ℕ) : ℝ) / SAMPLES = 0 := by norm_num
  unfold sineWave
  rw [h, Real.sin_zero, mul_zero, add_zero]
  norm_num

/-- Every generated sine entry fits the unsigned 8-bit range. -/
theorem sineWave_bounds (i : ℕ) : 0 ≤ sineWave i ∧ sineWave i ≤ 255 := by
  unfold sineWave
  constructor
  · apply Int.le_floor.mpr
    have hs := Real.neg_one_le_sin (2 * Real.pi * i / SAMPLES)
    push_cast
    nlinarith
  · have hle : (255 : ℝ) / 2 + (255 : ℝ) / 2 * Real.sin (2 * Real.pi * i / SAMPLES)
        ≤ 255 := by
      have hs := Real.sin_le_one (2 * Real.pi * i / SAMPLES)
      nlinarith
    have := Int.floor_le_floor hle
    rwa [show ⌊(255 : ℝ)⌋ = 255 by norm_num] at this

/-- C5 counterexample: the generated table truncates rather than rounds —
at index 0 the code stores `(uint8_t)127.5 = 127` while the claimed
formula `round(127.5 + 127.5·sin 0) = round(127.5)` gives 128. -/
theorem sine_table_truncates_not_rounds : sineWave 0 ≠ sineWaveSpec 0 := by
  have h : 2 * Real.pi * ((0 : ℕ) : ℝ) / SAMPLES = 0 := by norm_num
  unfold sineWave sineWaveSpec
  rw [h, Real.sin_zero, mul_zero, add_zero]
  rw [show ⌊(255 : ℝ) / 2⌋ = 127 by norm_num,
    show round ((255 : ℝ) / 2) = 128 by rw [round_eq]; norm_num]
  decide

/-- C5 amended: the generated sine table is the floor (truncation), not
the rounding, of `127.5 + 127.5·sin(2π·i/N)`; consequently `sample[0]`
is 127 (mid-scale), every entry fits `[0, 255]`, and for every `i < N/2`
the half-cycle pair sums to 254 or 255 (`≈ 255` within rounding). -/
theorem sine_table_shape (i : ℕ) (hi : i < 128) :
    sineWave 0 = 127 ∧
    0 ≤ sineWave i ∧ sineWave i ≤ 255 ∧
    254 ≤ sineWave i + sineWave (i + 128) ∧
    sineWave i + sineWave (i + 128) ≤ 255 := by
  have hb := sineWave_bounds i
  have hp := floor_pair_bounds
    ((255 : ℝ) / 2 + (255 : ℝ) / 2 * Real.sin (2 * Real.pi * i / SAMPLES))
  refine ⟨sineWave_zero, hb.1, hb.2, ?_, ?_⟩
  · rw [sineWave_add_half i]
    unfold sineWave
    exact hp.1
  · rw [sineWave_add_half i]
    unfold sineWave
    exact hp.2

/-- Witness for C5's amended theorem at index 0 (pair 0 and 128). -/
theorem sine_table_shape_witness :
    sineWave 0 = 127 ∧
    0 ≤ sineWave 0 ∧ sineWave 0 ≤ 255 ∧
    254 ≤ sineWave 0 + sineWave (0 + 128) ∧
    sineWave 0 + sineWave (0 + 128) ≤ 255 :=
  sine_table_shape 0 (by decide)

end Tylephone
